import Mathlib

/-!
Verification of the Bitbucket telegraf input plugin (cwadley/telegraf).

This file gives a shallow embedding of the plugin's core: the cursor-following
paginated HTTP fetch (`paginatedGet`), the entity resolvers (`getTeamMembers`,
`getRepos`), the fan-out collector (`getPRs`, `getUserPRs`, `getReposPRs`),
the record reducer (`getPRFields`, `getPRTags`), and the gather entry point
(`Gather`), all translated from `src/unnamed/part_001` (the final variant of
the plugin).  The earlier variant's repos path (`src/unnamed/part_002`,
`gatherRepos`), which aborts the process on a resolution failure, is embedded
as `gatherReposV2`.

Modelling conventions:
- The HTTP transport is a parameter: an environment maps a seed URL to the
  sequence of responses the transport yields for the successive requests of
  one paginated session, and JSON decoding (`encoding/json`, library code)
  is a parametric oracle returning `Except` like Go's `json.Unmarshal`.
- Go's `url.Values` is modelled as an association list in insertion order;
  `Values.Get` returns the first value bound to a key (or "" when the key is
  absent) and `Values.Add` appends, exactly as in `net/url`.
- `time.Time` is modelled as seconds plus nanoseconds since the epoch, with
  `Time.Unix` returning the seconds, as in Go's `time` package.
- Goroutine fan-out joined by a `WaitGroup` with a mutex held only for the
  result append is modelled as a fold over the entities: the join barrier
  makes the set of appended results and reported errors interleaving
  independent, so one canonical (program-order) interleaving is embedded.
- Mutable string/counter accumulation loops become explicit recursion.
-/

/-- Models Go `time.Time`: wall-clock seconds since the Unix epoch plus
nanoseconds. `Unix` drops the nanoseconds, as `time.Time.Unix` does. -/
structure Time where
  sec : Int
  nsec : Nat
deriving Repr, DecidableEq

/-- Go `time.Time.Unix`: integer seconds since the Unix epoch. -/
def Time.Unix (t : Time) : Int :=
  t.sec

/-- `user` struct of the plugin (part_000 lines 40-43). -/
structure user where
  DisplayName : String
  ID : String
deriving Repr, DecidableEq

/-- `repository` struct (part_000 lines 13-17). -/
structure repository where
  Name : String
  FullName : String
  Slug : String
deriving Repr, DecidableEq

/-- `branch` struct (part_000 lines 50-52). -/
structure branch where
  Name : String
deriving Repr, DecidableEq

/-- `merge` struct (part_000 lines 45-48): one side of a pull request. -/
structure merge where
  Repository : repository
  Branch : branch
deriving Repr, DecidableEq

/-- `link` struct (part_000 lines 58-60). -/
structure link where
  HREF : String
deriving Repr, DecidableEq

/-- `links` struct (part_000 lines 54-56). -/
structure links where
  HTML : link
deriving Repr, DecidableEq

/-- `participant` struct (part_000 lines 34-38). -/
structure participant where
  User : user
  Role : String
  Approved : Bool
deriving Repr, DecidableEq

/-- `pullRequest` struct (part_000 lines 19-32). -/
structure pullRequest where
  ID : Int
  Title : String
  State : String
  CommentCount : Int
  TaskCount : Int
  Author : user
  CreatedOn : Time
  UpdatedOn : Time
  Source : merge
  Destination : merge
  Participants : List participant
  Links : links
deriving Repr, DecidableEq

/-- A request URL: a path part plus parsed query parameters.  Go's
`url.Values` (a multimap) is modelled as an association list in insertion
order; the plugin only reads and appends parameters, so the list order
abstracts `Encode`'s key sorting without losing any parameter. -/
structure url where
  path : String
  query : List (String × String)
deriving Repr, DecidableEq

/-- A `page` of the Bitbucket API (part_000 lines 8-11).  Go's `Next`
string is empty when there is no next page; the empty string is modelled
as `none` and a non-empty cursor as `some` of the cursor URL.  The opaque
`json.RawMessage` values are modelled as strings. -/
structure page where
  Next : Option url
  Values : List String
deriving Repr, DecidableEq

/-- Go `url.Values.Get`: first value bound to the key, or "" when the key
is not present (Go returns "" in both cases; this conflation is load
bearing for the parameter-merge behaviour). -/
def qGet (q : List (String × String)) (key : String) : String :=
  match q.find? (fun kv => kv.1 = key) with
  | some kv => kv.2
  | none => ""

/-- Go `url.Values.Add`: append a key/value binding. -/
def qAdd (q : List (String × String)) (key value : String) : List (String × String) :=
  q ++ [(key, value)]

/-- The query-parameter merge of `paginatedGet` (part_001 lines 247-254):
add `pagelen` only when `Get "pagelen"` is empty, then add `fields` only
when `Get "fields"` is empty. -/
def mergeParams (q : List (String × String)) (pagelen fields : String) :
    List (String × String) :=
  let q1 := if qGet q "pagelen" = "" then qAdd q "pagelen" pagelen else q
  if qGet q1 "fields" = "" then qAdd q1 "fields" fields else q1

/-- An HTTP response as the plugin reads it: `StatusCode`, the status text
`Status`, and the body bytes. -/
structure httpResponse where
  StatusCode : Int
  Status : String
  Body : String
deriving Repr, DecidableEq

/-- Outcome of one `client.Do(req)`: either a transport failure or a
response. -/
inductive doResult where
  | failure (e : String)
  | success (resp : httpResponse)
deriving Repr, DecidableEq

/-- The paginated fetch `paginatedGet` (part_001 lines 237-283), translated
over an explicit transport: `resps` is the sequence of `client.Do` outcomes
the transport yields for the successive requests of this session.  Returns
the Go function's result (`Except` standing for `([]json.RawMessage, error)`)
together with the log of requested URLs (one per loop iteration, query
parameters merged as on lines 247-254).  An exhausted response sequence is a
transport failure.  `values` is the accumulator of page values. -/
def paginatedGet (parsePage : String → Except String page)
    (fields pagelen : String) :
    url → List doResult → List String →
    Except String (List String) × List url
  | currURL, [], _values =>
    (Except.error "transport: no response", [⟨currURL.path, mergeParams currURL.query pagelen fields⟩])
  | currURL, doResult.failure e :: _, _values =>
    (Except.error e, [⟨currURL.path, mergeParams currURL.query pagelen fields⟩])
  | currURL, doResult.success resp :: rest, values =>
    let req : url := ⟨currURL.path, mergeParams currURL.query pagelen fields⟩
    if resp.StatusCode < 200 ∨ 299 < resp.StatusCode then
      (Except.error ("Response from Bitbucket API: " ++ resp.Status), [req])
    else
      match parsePage resp.Body with
      | Except.error e => (Except.error e, [req])
      | Except.ok currPage =>
        match currPage.Next with
        | some nxt =>
          let r := paginatedGet parsePage fields pagelen nxt rest (values ++ currPage.Values)
          (r.1, req :: r.2)
        | none => (Except.ok (values ++ currPage.Values), [req])

/-- The record-parsing loops of the plugin (e.g. part_001 lines 151-159,
172-180, 203-212): decode each raw record in order, failing on the first
record the decoder rejects (the partially parsed prefix is discarded). -/
def parseAll {α : Type} (parse : String → Except String α) :
    List String → Except String (List α)
  | [] => Except.ok []
  | r :: rest =>
    match parse r with
    | Except.error e => Except.error e
    | Except.ok a =>
      match parseAll parse rest with
      | Except.error e => Except.error e
      | Except.ok as => Except.ok (a :: as)

/-- The external world of one gather cycle: the authenticated transport
(`serve` maps a seed URL to the response sequence of its paginated session),
the library path escaper `net/url.PathEscape`, and the `encoding/json`
decoders for each record shape. -/
structure httpEnv where
  serve : String → List doResult
  pathEscape : String → String
  parsePage : String → Except String page
  parseUser : String → Except String user
  parseRepo : String → Except String repository
  parsePR : String → Except String pullRequest

/-- The sink (`telegraf.Accumulator`) restricted to what the plugin uses:
an error channel and the emitted metric records, in order.  `μ` is the
shape of one emitted record. -/
structure accum (μ : Type) where
  errors : List String
  metrics : List μ
deriving Repr, DecidableEq

/-- `acc.AddError`. -/
def accum.addError {μ : Type} (a : accum μ) (e : String) : accum μ :=
  { a with errors := a.errors ++ [e] }

/-- `acc.AddFields` (the measurement name, field map, tag map and capture
timestamp are bundled into the record `m`; wall-clock capture time is not
modelled). -/
def accum.addFields {μ : Type} (a : accum μ) (m : μ) : accum μ :=
  { a with metrics := a.metrics ++ [m] }

/-- `getTeamMembers` (part_001 lines 143-161): one paginated fetch of the
members listing, then a fail-fast parse of every raw member. -/
def getTeamMembers (env : httpEnv) (base team : String) :
    Except String (List user) :=
  let memberURL := base ++ "/users/" ++ team ++ "/members"
  match (paginatedGet env.parsePage "values.uuid" "100"
      ⟨memberURL, []⟩ (env.serve memberURL) []).1 with
  | Except.error e => Except.error e
  | Except.ok rawMembers => parseAll env.parseUser rawMembers

/-- `getRepos` (part_001 lines 163-183): one paginated fetch of the
repositories listing, then a fail-fast parse of every raw repository. -/
def getRepos (env : httpEnv) (base owner : String) :
    Except String (List repository) :=
  let repoURL := base ++ "/repositories/" ++ owner
  match (paginatedGet env.parsePage "values.name,values.full_name,values.slug" "100"
      ⟨repoURL, []⟩ (env.serve repoURL) []).1 with
  | Except.error e => Except.error e
  | Except.ok rawRepos => parseAll env.parseRepo rawRepos

/-- The field selector of `getPRs` (part_001 lines 189-195), verbatim
including the stray space after `display_name,`. -/
def prFieldsSelector : String :=
  "values.id,values.title,values.description,values.state,values.comment_count," ++
    "values.author.display_name, values.author.nickname,values.created_on," ++
    "values.updated_on,values.source.repository.name,values.source.repository.full_name," ++
    "values.source.repository.slug,values.source.branch,values.destination.repository.name," ++
    "values.destination.repository.full_name,values.destination.repository.slug," ++
    "values.destination.branch,values.participants.role,values.participants.user.display_name," ++
    "values.participants.approved,values.links.html,values.task_count"

/-- The field selector of the earlier variant's `getPRs` (part_002 lines
189-193). -/
def prFieldsSelectorV2 : String :=
  "values.id,values.title,values.description,values.state,values.comment_count," ++
    "values.author.display_name, values.author.nickname,values.created_on," ++
    "values.updated_on,values.source.repository.name,values.source.branch," ++
    "values.destination.repository.name,values.destination.branch,values.participants.role," ++
    "values.participants.user.display_name,values.participants.approved,values.links.html"

/-- Core of `getPRs` (part_001 lines 185-217), generic in the field
selector (part_001 and part_002 embed different selector literals) and in
the record shape of the sink: one paginated fetch with pagelen 25, a
fail-fast parse of every raw pull request, then the mutex-guarded append
of the parsed records to the shared result `out`.  A fetch or parse error
is reported to the sink and the task contributes nothing. -/
def getPRsWith {μ : Type} (fieldsSel : String) (env : httpEnv) (prURL : String)
    (a : accum μ) (out : List pullRequest) : accum μ × List pullRequest :=
  match (paginatedGet env.parsePage fieldsSel "25"
      ⟨prURL, []⟩ (env.serve prURL) []).1 with
  | Except.error e => (a.addError e, out)
  | Except.ok rawPRs =>
    match parseAll env.parsePR rawPRs with
    | Except.error e => (a.addError e, out)
    | Except.ok parsedPRs => (a, out ++ parsedPRs)

/-- `getPRs` of the final variant (part_001 lines 185-217). -/
def getPRs {μ : Type} (env : httpEnv) (prURL : String)
    (a : accum μ) (out : List pullRequest) : accum μ × List pullRequest :=
  getPRsWith prFieldsSelector env prURL a out

/-- The pull-request listing URL for one member (part_001 line 121). -/
def memberPRURL (env : httpEnv) (base : String) (m : user) : String :=
  base ++ "/pullrequests/" ++ env.pathEscape m.ID

/-- The pull-request listing URL for one repository (part_001 line 135). -/
def repoPRURL (base owner : String) (r : repository) : String :=
  base ++ "/repositories/" ++ owner ++ "/" ++ r.Slug ++ "/pullrequests"

/-- `getUserPRs` (part_001 lines 115-127): fan out one `getPRs` task per
member and join.  The mutex-plus-WaitGroup fan-out is embedded as a fold
in program order (every interleaving yields this accumulator content up to
the order of independent appends). -/
def getUserPRs {μ : Type} (env : httpEnv) (base : String) (members : List user)
    (a : accum μ) : accum μ × List pullRequest :=
  members.foldl (fun s m => getPRs env (memberPRURL env base m) s.1 s.2) (a, [])

/-- `getReposPRs` (part_001 lines 129-141): fan out one `getPRs` task per
repository and join. -/
def getReposPRs {μ : Type} (env : httpEnv) (base owner : String)
    (repos : List repository) (a : accum μ) : accum μ × List pullRequest :=
  repos.foldl (fun s r => getPRs env (repoPRURL base owner r) s.1 s.2) (a, [])

/-- The reviewer loop of `getPRFields` (part_001 lines 286-305): iterate
the participants, and for each REVIEWER grow the `reviewers` string (comma
separated once non-empty, the name prefixed by the check-mark glyph when
approved), the `approved` string (comma separated names of approving
reviewers) and the `approvals` counter.  The three mutable locals become
explicit accumulators. -/
def reviewerFold : List participant → String → String → Nat → String × String × Nat
  | [], reviewers, approved, approvals => (reviewers, approved, approvals)
  | r :: rest, reviewers, approved, approvals =>
    if r.Role = "REVIEWER" then
      let reviewers1 := if reviewers ≠ "" then reviewers ++ ", " else reviewers
      if r.Approved then
        reviewerFold rest (reviewers1 ++ "✅" ++ r.User.DisplayName)
          ((if approved ≠ "" then approved ++ ", " else approved) ++ r.User.DisplayName)
          (approvals + 1)
      else
        reviewerFold rest (reviewers1 ++ r.User.DisplayName) approved approvals
    else
      reviewerFold rest reviewers approved approvals

/-- The field map built by `getPRFields` (part_001 lines 307-324), as a
record (the Go `map[string]interface{}` has exactly these keys). -/
structure prFields where
  id : Int
  title : String
  pr_state : String
  comment_count : Int
  task_count : Int
  author : String
  created_on : Int
  updated_on : Int
  src_repo : String
  src_branch : String
  dest_repo : String
  dest_branch : String
  reviewers : String
  approved : String
  approval_count : Nat
  link : String
deriving Repr, DecidableEq

/-- `getPRFields` (part_001 lines 285-325). -/
def getPRFields (p : pullRequest) : prFields :=
  let r := reviewerFold p.Participants "" "" 0
  { id := p.ID
    title := p.Title
    pr_state := p.State
    comment_count := p.CommentCount
    task_count := p.TaskCount
    author := p.Author.DisplayName
    created_on := p.CreatedOn.Unix
    updated_on := p.UpdatedOn.Unix
    src_repo := p.Source.Repository.Name
    src_branch := p.Source.Branch.Name
    dest_repo := p.Destination.Repository.Name
    dest_branch := p.Destination.Branch.Name
    reviewers := r.1
    approved := r.2.1
    approval_count := r.2.2
    link := p.Links.HTML.HREF }

/-- The tag map built by `getPRTags` (part_001 lines 327-332). -/
structure prTags where
  state : String
  source_repo : String
deriving Repr, DecidableEq

/-- `getPRTags` (part_001 lines 327-332). -/
def getPRTags (p : pullRequest) : prTags :=
  { state := p.State, source_repo := p.Source.Repository.Slug }

/-- One emitted record of the final variant: measurement name, fields and
tags, as passed to `acc.AddFields` on part_001 line 222. -/
structure metric where
  name : String
  fields : prFields
  tags : prTags
deriving Repr, DecidableEq

/-- `accumulatePRs` (part_001 lines 219-224): emit one record per pull
request. -/
def accumulatePRs (prs : List pullRequest) (a : accum metric) : accum metric :=
  prs.foldl (fun a p => a.addFields ⟨"bitbucket", getPRFields p, getPRTags p⟩) a

/-- The plugin configuration consumed by `Gather` (part_001 lines 21-29);
the OAuth credentials and timeout only configure the transport, which is
the `httpEnv` parameter here. -/
structure Bitbucket where
  Owner : String
  GatherType : String
  BitbucketAPIBaseURL : String
deriving Repr, DecidableEq

/-- The error message of the invalid gather-type branch (part_001 line
108). -/
def invalidGatherTypeMsg : String :=
  "invalid gather_type, must be either \x60team\x60, \x60user\x60, or \x60repos\x60"

/-- `Gather` (part_001 lines 75-113): dispatch on the configured gather
type, resolve entities, fan out, and emit; the second component is the
error value returned to the caller (`none` standing for Go's `nil`). -/
def Gather (env : httpEnv) (bb : Bitbucket) (a : accum metric) :
    accum metric × Option String :=
  if bb.GatherType = "team" then
    match getTeamMembers env bb.BitbucketAPIBaseURL bb.Owner with
    | Except.error e => (a.addError e, some e)
    | Except.ok members =>
      let s := getUserPRs env bb.BitbucketAPIBaseURL members a
      (accumulatePRs s.2 s.1, none)
  else if bb.GatherType = "user" then
    let users : List user := [{ DisplayName := "", ID := bb.Owner }]
    let s := getUserPRs env bb.BitbucketAPIBaseURL users a
    (accumulatePRs s.2 s.1, none)
  else if bb.GatherType = "repos" then
    match getRepos env bb.BitbucketAPIBaseURL bb.Owner with
    | Except.error e => (a.addError e, none)
    | Except.ok repos =>
      let s := getReposPRs env bb.BitbucketAPIBaseURL bb.Owner repos a
      (accumulatePRs s.2 s.1, none)
  else
    (a.addError invalidGatherTypeMsg, some invalidGatherTypeMsg)

/-- The reviewer loop of the earlier variant's `getPRFields` (part_002
lines 277-292): `reviewers` and `not_approved` strings, no check-mark
marker and no approval counter. -/
def reviewerFoldV2 : List participant → String → String → String × String
  | [], reviewers, notApproved => (reviewers, notApproved)
  | r :: rest, reviewers, notApproved =>
    if r.Role = "REVIEWER" then
      let reviewers1 := (if reviewers ≠ "" then reviewers ++ ", " else reviewers) ++ r.User.DisplayName
      if ¬ r.Approved then
        reviewerFoldV2 rest reviewers1
          ((if notApproved ≠ "" then notApproved ++ ", " else notApproved) ++ r.User.DisplayName)
      else
        reviewerFoldV2 rest reviewers1 notApproved
    else
      reviewerFoldV2 rest reviewers notApproved

/-- The field map of the earlier variant's `getPRFields` (part_002 lines
294-309). -/
structure prFieldsV2 where
  id : Int
  title : String
  pr_state : String
  comment_count : Int
  author : String
  created_on : Int
  updated_on : Int
  src_repo : String
  src_branch : String
  dest_repo : String
  dest_branch : String
  reviewers : String
  not_approved : String
  link : String
deriving Repr, DecidableEq

/-- `getPRFields` of the earlier variant (part_002 lines 276-310). -/
def getPRFieldsV2 (p : pullRequest) : prFieldsV2 :=
  let r := reviewerFoldV2 p.Participants "" ""
  { id := p.ID
    title := p.Title
    pr_state := p.State
    comment_count := p.CommentCount
    author := p.Author.DisplayName
    created_on := p.CreatedOn.Unix
    updated_on := p.UpdatedOn.Unix
    src_repo := p.Source.Repository.Name
    src_branch := p.Source.Branch.Name
    dest_repo := p.Destination.Repository.Name
    dest_branch := p.Destination.Branch.Name
    reviewers := r.1
    not_approved := r.2
    link := p.Links.HTML.HREF }

/-- One emitted record of the earlier variant (part_002 line 139). -/
structure metricV2 where
  name : String
  fields : prFieldsV2
  tags : prTags
deriving Repr, DecidableEq

/-- `accumulatePRs` of the earlier variant (part_002 lines 136-141). -/
def accumulatePRsV2 (prs : List pullRequest) (a : accum metricV2) : accum metricV2 :=
  prs.foldl (fun a p => a.addFields ⟨"bitbucket", getPRFieldsV2 p, getPRTags p⟩) a

/-- Outcome of a routine that may terminate the whole process: either a
normal result or a process abort (`os.Exit code` after printing `printed`
to stdout), which no caller can observe or recover from. -/
inductive procResult (α : Type) where
  | normal (a : α)
  | aborted (code : Nat) (printed : String)
deriving Repr, DecidableEq

/-- `gatherRepos` of the earlier variant (part_002 lines 116-134): on a
repository-listing failure it prints the error and calls `os.Exit(1)` —
nothing is reported to the accumulator; otherwise it fans out one
`getPRs` per repository and emits the merged records. -/
def gatherReposV2 (env : httpEnv) (base ownerName : String)
    (a : accum metricV2) : procResult (accum metricV2) :=
  match getRepos env base ownerName with
  | Except.error e => procResult.aborted 1 e
  | Except.ok repos =>
    let s := repos.foldl
      (fun s r => getPRsWith prFieldsSelectorV2 env (repoPRURL base ownerName r) s.1 s.2)
      (a, ([] : List pullRequest))
    procResult.normal (accumulatePRsV2 s.2 s.1)

/-! ## Specification-side definitions

The following definitions state the spec's vocabulary (comma-and-space
joins, reviewer filters, page chains, per-entity contributions) so the
code-derived definitions above can be compared against them. -/

/-- One step of the plugin's string accumulation idiom: append a comma and
a space first when the accumulator is already non-empty, then the item. -/
def joinStep (a s : String) : String :=
  (if a ≠ "" then a ++ ", " else a) ++ s

/-- All items, each preceded by a comma and a space. -/
def joinPre : List String → String
  | [] => ""
  | s :: rest => ", " ++ s ++ joinPre rest

/-- Spec wording: the comma-and-space-joined list of the items. -/
def joinCS : List String → String
  | [] => ""
  | [s] => s
  | s :: t :: rest => s ++ ", " ++ joinCS (t :: rest)

/-- Spec wording: an approved reviewer's display name is prefixed by the
check-mark glyph U+2705 with no separator. -/
def markName (r : participant) : String :=
  if r.Approved then "✅" ++ r.User.DisplayName else r.User.DisplayName

/-- Participant with role REVIEWER. -/
def isReviewerB (r : participant) : Bool :=
  decide (r.Role = "REVIEWER")

/-- REVIEWER participant whose approved flag is set. -/
def isApprovedReviewerB (r : participant) : Bool :=
  decide (r.Role = "REVIEWER") && r.Approved

/-- Decidable equality for `Except` results, used to state the serving
predicate as a computable check. -/
instance exceptDecEq {e a : Type} [DecidableEq e] [DecidableEq a] :
    DecidableEq (Except e a) := fun x y =>
  match x, y with
  | Except.ok u, Except.ok v => decidable_of_iff (u = v) (by simp)
  | Except.error u, Except.error v => decidable_of_iff (u = v) (by simp)
  | Except.ok _, Except.error _ => isFalse (by simp)
  | Except.error _, Except.ok _ => isFalse (by simp)

/-- The transport serves, for the successive requests of one session, the
given pages: each `client.Do` outcome is a response with a 2xx status whose
body the page decoder accepts as the corresponding page. -/
def servesPages (pp : String → Except String page) :
    List doResult → List page → Bool
  | [], [] => true
  | doResult.success r :: rs, pg :: pgs =>
    decide (200 ≤ r.StatusCode) && decide (r.StatusCode ≤ 299) &&
      decide (pp r.Body = Except.ok pg) && servesPages pp rs pgs
  | _, _ => false

/-- The pages a cursor-following client consumes: everything up to and
including the first page whose next-cursor is empty. -/
def takeThrough : List page → List page
  | [] => []
  | pg :: rest =>
    match pg.Next with
    | some _ => pg :: takeThrough rest
    | none => [pg]

/-- Some page of the sequence carries an empty next-cursor. -/
def hasFinal : List page → Bool
  | [] => false
  | pg :: rest => pg.Next.isNone || hasFinal rest

/-- Every page of the sequence carries a non-empty next-cursor. -/
def allNextSome : List page → Bool
  | [] => true
  | pg :: rest => pg.Next.isSome && allNextSome rest

/-- The fetch-and-parse step of one fan-out task, without the sink: the
paginated fetch of the entity's pull-request listing followed by the
fail-fast parse (part_001 lines 189-212). -/
def fetchParsePRs (env : httpEnv) (prURL : String) :
    Except String (List pullRequest) :=
  match (paginatedGet env.parsePage prFieldsSelector "25"
      ⟨prURL, []⟩ (env.serve prURL) []).1 with
  | Except.error e => Except.error e
  | Except.ok rawPRs => parseAll env.parsePR rawPRs

/-- The pull requests one entity contributes to the merged collection:
the parsed records on success, nothing on a failed fetch or parse. -/
def prContrib (env : httpEnv) (prURL : String) : List pullRequest :=
  match fetchParsePRs env prURL with
  | Except.ok l => l
  | Except.error _ => []

/-- The errors one entity reports to the sink: exactly one on a failed
fetch or parse, none on success. -/
def prErrs (env : httpEnv) (prURL : String) : List String :=
  match fetchParsePRs env prURL with
  | Except.ok _ => []
  | Except.error e => [e]

/-- Fixture for the fan-out witness: the pull request served for the
first member. -/
def prOneC3 : pullRequest :=
  { ID := 1, Title := "t1", State := "OPEN", CommentCount := 0,
    TaskCount := 0, Author := ⟨"a1", "u1"⟩,
    CreatedOn := ⟨10, 0⟩, UpdatedOn := ⟨20, 0⟩,
    Source := ⟨⟨"r", "f/r", "r"⟩, ⟨"b"⟩⟩,
    Destination := ⟨⟨"r", "f/r", "r"⟩, ⟨"b"⟩⟩,
    Participants := [], Links := ⟨⟨"h1"⟩⟩ }

/-- Fixture for the fan-out witness: the pull request served for the
third member. -/
def prThreeC3 : pullRequest :=
  { ID := 3, Title := "t3", State := "OPEN", CommentCount := 0,
    TaskCount := 0, Author := ⟨"a3", "u3"⟩,
    CreatedOn := ⟨30, 0⟩, UpdatedOn := ⟨40, 0⟩,
    Source := ⟨⟨"r", "f/r", "r"⟩, ⟨"b"⟩⟩,
    Destination := ⟨⟨"r", "f/r", "r"⟩, ⟨"b"⟩⟩,
    Participants := [], Links := ⟨⟨"h3"⟩⟩ }

/-- Fixture for the fan-out witness: three members, of which the second
receives a 500 response and the other two one good single-value page
each. -/
def envC3 : httpEnv :=
  { serve := fun u =>
      if u = "b/pullrequests/u1" then [doResult.success ⟨200, "200 OK", "m1"⟩]
      else if u = "b/pullrequests/u2" then
        [doResult.success ⟨500, "500 Internal Server Error", ""⟩]
      else if u = "b/pullrequests/u3" then [doResult.success ⟨200, "200 OK", "m3"⟩]
      else [doResult.failure "no route"]
    pathEscape := fun s => s
    parsePage := fun b =>
      if b = "m1" then Except.ok ⟨none, ["rp1"]⟩
      else if b = "m3" then Except.ok ⟨none, ["rp3"]⟩
      else Except.error "invalid page"
    parseUser := fun _ => Except.error "unused"
    parseRepo := fun _ => Except.error "unused"
    parsePR := fun r =>
      if r = "rp1" then Except.ok prOneC3
      else if r = "rp3" then Except.ok prThreeC3
      else Except.error "invalid pr" }

/-- Fixture: an environment whose transport answers every request with a
transport failure "boom". -/
def envFailC10 : httpEnv :=
  { serve := fun _ => [doResult.failure "boom"]
    pathEscape := fun s => s
    parsePage := fun _ => Except.error "invalid page"
    parseUser := fun _ => Except.error "invalid user"
    parseRepo := fun _ => Except.error "invalid repo"
    parsePR := fun _ => Except.error "invalid pr" }

/-- Fixture: an environment whose transport answers every request with a
404 response. -/
def envNotFoundC7 : httpEnv :=
  { serve := fun _ => [doResult.success ⟨404, "404 Not Found", ""⟩]
    pathEscape := fun s => s
    parsePage := fun _ => Except.error "invalid page"
    parseUser := fun _ => Except.error "invalid user"
    parseRepo := fun _ => Except.error "invalid repo"
    parsePR := fun _ => Except.error "invalid pr" }

/-! ## Helper lemmas -/

/-- A string of positive length is not the empty string. -/
theorem ne_empty_of_pos (s : String) (h : 0 < s.length) : s ≠ "" := by
  intro he
  rw [he] at h
  exact absurd h (by decide)

/-- `joinStep` never returns the empty string when fed a non-empty
accumulator. -/
theorem joinStep_ne (a s : String) (h : a ≠ "") : joinStep a s ≠ "" := by
  have : joinStep a s = (a ++ ", ") ++ s := by simp [joinStep, h]
  rw [this]
  apply ne_empty_of_pos
  rw [String.length_append, String.length_append]
  have h2 : (", " : String).length = 2 := rfl
  omega

/-- Folding `joinStep` from a non-empty accumulator appends the
comma-preceded items. -/
theorem foldl_joinStep_ne (l : List String) :
    ∀ a : String, a ≠ "" → l.foldl joinStep a = a ++ joinPre l := by
  induction l with
  | nil => intro a _; simp [joinPre]
  | cons s rest ih =>
    intro a ha
    have hstep : joinStep a s = (a ++ ", ") ++ s := by simp [joinStep, ha]
    calc (s :: rest).foldl joinStep a = rest.foldl joinStep (joinStep a s) := rfl
      _ = joinStep a s ++ joinPre rest := ih _ (joinStep_ne a s ha)
      _ = ((a ++ ", ") ++ s) ++ joinPre rest := by rw [hstep]
      _ = a ++ joinPre (s :: rest) := by
          simp [joinPre, String.append_assoc]

/-- The comma-and-space join of a non-empty list, written with the head
split off. -/
theorem joinCS_cons (rest : List String) :
    ∀ s : String, joinCS (s :: rest) = s ++ joinPre rest := by
  induction rest with
  | nil => intro s; simp [joinCS, joinPre]
  | cons t r ih =>
    intro s
    calc joinCS (s :: t :: r) = s ++ ", " ++ joinCS (t :: r) := rfl
      _ = s ++ ", " ++ (t ++ joinPre r) := by rw [ih]
      _ = s ++ joinPre (t :: r) := by simp [joinPre, String.append_assoc]

/-- Folding `joinStep` from the empty accumulator over non-empty items is
the comma-and-space join. -/
theorem foldl_joinStep_empty (l : List String) (h : ∀ x ∈ l, x ≠ "") :
    l.foldl joinStep "" = joinCS l := by
  cases l with
  | nil => rfl
  | cons s rest =>
    have hs : s ≠ "" := h s (by simp)
    have hstep : joinStep "" s = s := by simp [joinStep]
    calc (s :: rest).foldl joinStep "" = rest.foldl joinStep (joinStep "" s) := rfl
      _ = rest.foldl joinStep s := by rw [hstep]
      _ = s ++ joinPre rest := foldl_joinStep_ne rest s hs
      _ = joinCS (s :: rest) := (joinCS_cons rest s).symm

/-- The reviewer loop is the `joinStep` fold of the marked reviewer names,
the `joinStep` fold of the approving reviewers' names, and the count of
approving reviewers, from arbitrary accumulators. -/
theorem reviewerFold_joinStep (ps : List participant) :
    ∀ (rv ap : String) (n : Nat),
    reviewerFold ps rv ap n =
      (((ps.filter isReviewerB).map markName).foldl joinStep rv,
       ((ps.filter isApprovedReviewerB).map (fun r => r.User.DisplayName)).foldl joinStep ap,
       n + (ps.filter isApprovedReviewerB).length) := by
  induction ps with
  | nil => intro rv ap n; simp [reviewerFold]
  | cons r rest ih =>
    intro rv ap n
    by_cases hR : r.Role = "REVIEWER"
    · cases hA : r.Approved with
      | true =>
        have hmark : joinStep rv (markName r) =
            ((if rv ≠ "" then rv ++ ", " else rv) ++ "✅") ++ r.User.DisplayName := by
          simp [joinStep, markName, hA, String.append_assoc]
        simp only [reviewerFold, hR, if_true, hA, List.filter_cons, isReviewerB,
          isApprovedReviewerB, decide_eq_true_eq, if_pos, Bool.and_eq_true, List.map_cons,
          List.length_cons, List.foldl_cons, ih]
        rw [hmark]
        simp [hR, hA, joinStep]
        omega
      | false =>
        have hmark : joinStep rv (markName r) =
            (if rv ≠ "" then rv ++ ", " else rv) ++ r.User.DisplayName := by
          simp [joinStep, markName, hA]
        simp only [reviewerFold, hR, if_true, hA, List.filter_cons, isReviewerB,
          isApprovedReviewerB, decide_eq_true_eq, Bool.and_eq_true, List.map_cons,
          List.length_cons, List.foldl_cons, ih]
        rw [hmark]
        simp [hR, hA, joinStep]
    · simp only [reviewerFold, hR, if_false, List.filter_cons, isReviewerB,
        isApprovedReviewerB, decide_eq_true_eq, Bool.and_eq_true, ih]
      simp [hR]

/-- The check-mark marked name of a reviewer with a non-empty display name
is non-empty. -/
theorem markName_ne (r : participant) (h : r.User.DisplayName ≠ "") :
    markName r ≠ "" := by
  unfold markName
  cases hA : r.Approved with
  | true =>
    simp only [if_pos]
    apply ne_empty_of_pos
    rw [String.length_append]
    have : ("✅" : String).length = 1 := rfl
    omega
  | false => simpa using h

/-- C2 (amended): for a pull request all of whose REVIEWER participants
have non-empty display names, `getPRFields` produces `reviewers` as the
comma-and-space join of the reviewer display names in participant order
with each approved reviewer's name prefixed by the U+2705 glyph,
`approved` as the comma-and-space join of the approving reviewers' names,
and `approval_count` as the number of approving reviewers. -/
theorem getPRFields_reviewer_formula (p : pullRequest)
    (h : ∀ r ∈ p.Participants, r.Role = "REVIEWER" → r.User.DisplayName ≠ "") :
    (getPRFields p).reviewers
        = joinCS ((p.Participants.filter isReviewerB).map markName)
      ∧ (getPRFields p).approved
        = joinCS ((p.Participants.filter isApprovedReviewerB).map
            (fun r => r.User.DisplayName))
      ∧ (getPRFields p).approval_count
        = (p.Participants.filter isApprovedReviewerB).length := by
  have hfold := reviewerFold_joinStep p.Participants "" "" 0
  have hrev : ∀ x ∈ (p.Participants.filter isReviewerB).map markName, x ≠ "" := by
    intro x hx
    obtain ⟨r, hr, rfl⟩ := List.mem_map.mp hx
    have hrole : r.Role = "REVIEWER" := by
      have := List.of_mem_filter hr
      simpa [isReviewerB] using this
    exact markName_ne r (h r (List.mem_of_mem_filter hr) hrole)
  have hap : ∀ x ∈ (p.Participants.filter isApprovedReviewerB).map
      (fun r => r.User.DisplayName), x ≠ "" := by
    intro x hx
    obtain ⟨r, hr, rfl⟩ := List.mem_map.mp hx
    have hrole : r.Role = "REVIEWER" := by
      have := List.of_mem_filter hr
      simp [isApprovedReviewerB] at this
      exact this.1
    exact h r (List.mem_of_mem_filter hr) hrole
  refine ⟨?_, ?_, ?_⟩
  · show (reviewerFold p.Participants "" "" 0).1 = _
    rw [hfold]
    exact foldl_joinStep_empty _ hrev
  · show (reviewerFold p.Participants "" "" 0).2.1 = _
    rw [hfold]
    exact foldl_joinStep_empty _ hap
  · show (reviewerFold p.Participants "" "" 0).2.2 = _
    rw [hfold]
    exact Nat.zero_add _

/-- C2 witness: the spec's own instance.  Participants A (not approved),
B (not approved), C (approved), all REVIEWER and with non-empty names,
yield reviewers "A, B, ✅C", approved "C" and approval count 1. -/
theorem getPRFields_reviewer_formula_witness :
    (∀ r ∈ ([⟨⟨"A", "ua"⟩, "REVIEWER", false⟩,
             ⟨⟨"B", "ub"⟩, "REVIEWER", false⟩,
             ⟨⟨"C", "uc"⟩, "REVIEWER", true⟩] : List participant),
        r.Role = "REVIEWER" → r.User.DisplayName ≠ "")
      ∧ (getPRFields
          { ID := 7, Title := "t", State := "OPEN", CommentCount := 0,
            TaskCount := 0, Author := ⟨"auth", "uau"⟩,
            CreatedOn := ⟨100, 0⟩, UpdatedOn := ⟨200, 0⟩,
            Source := ⟨⟨"r", "f/r", "r"⟩, ⟨"b1"⟩⟩,
            Destination := ⟨⟨"r", "f/r", "r"⟩, ⟨"b2"⟩⟩,
            Participants := [⟨⟨"A", "ua"⟩, "REVIEWER", false⟩,
                             ⟨⟨"B", "ub"⟩, "REVIEWER", false⟩,
                             ⟨⟨"C", "uc"⟩, "REVIEWER", true⟩],
            Links := ⟨⟨"http://x"⟩⟩ }).reviewers = "A, B, ✅C"
      ∧ (getPRFields
          { ID := 7, Title := "t", State := "OPEN", CommentCount := 0,
            TaskCount := 0, Author := ⟨"auth", "uau"⟩,
            CreatedOn := ⟨100, 0⟩, UpdatedOn := ⟨200, 0⟩,
            Source := ⟨⟨"r", "f/r", "r"⟩, ⟨"b1"⟩⟩,
            Destination := ⟨⟨"r", "f/r", "r"⟩, ⟨"b2"⟩⟩,
            Participants := [⟨⟨"A", "ua"⟩, "REVIEWER", false⟩,
                             ⟨⟨"B", "ub"⟩, "REVIEWER", false⟩,
                             ⟨⟨"C", "uc"⟩, "REVIEWER", true⟩],
            Links := ⟨⟨"http://x"⟩⟩ }).approved = "C"
      ∧ (getPRFields
          { ID := 7, Title := "t", State := "OPEN", CommentCount := 0,
            TaskCount := 0, Author := ⟨"auth", "uau"⟩,
            CreatedOn := ⟨100, 0⟩, UpdatedOn := ⟨200, 0⟩,
            Source := ⟨⟨"r", "f/r", "r"⟩, ⟨"b1"⟩⟩,
            Destination := ⟨⟨"r", "f/r", "r"⟩, ⟨"b2"⟩⟩,
            Participants := [⟨⟨"A", "ua"⟩, "REVIEWER", false⟩,
                             ⟨⟨"B", "ub"⟩, "REVIEWER", false⟩,
                             ⟨⟨"C", "uc"⟩, "REVIEWER", true⟩],
            Links := ⟨⟨"http://x"⟩⟩ }).approval_count = 1 := by
  refine ⟨by decide, ?_, ?_, ?_⟩
  · exact ((getPRFields_reviewer_formula _ (by decide)).1).trans (by decide)
  · exact ((getPRFields_reviewer_formula _ (by decide)).2.1).trans (by decide)
  · exact ((getPRFields_reviewer_formula _ (by decide)).2.2).trans (by decide)

/-- C2 counterexample: with a first REVIEWER whose display name is the
empty string (not approved) followed by reviewer D, the code produces
"D" while the comma-and-space join of the reviewer names is ", D": the
claimed join formula fails for empty display names, because the loop
tests `reviewers != ""` to decide whether a separator is due. -/
theorem getPRFields_reviewer_formula_counterexample :
    (getPRFields
        { ID := 1, Title := "t", State := "OPEN", CommentCount := 0,
          TaskCount := 0, Author := ⟨"auth", "uau"⟩,
          CreatedOn := ⟨0, 0⟩, UpdatedOn := ⟨0, 0⟩,
          Source := ⟨⟨"r", "f/r", "r"⟩, ⟨"b1"⟩⟩,
          Destination := ⟨⟨"r", "f/r", "r"⟩, ⟨"b2"⟩⟩,
          Participants := [⟨⟨"", "u0"⟩, "REVIEWER", false⟩,
                           ⟨⟨"D", "ud"⟩, "REVIEWER", false⟩],
          Links := ⟨⟨"http://x"⟩⟩ }).reviewers = "D"
      ∧ joinCS ((([⟨⟨"", "u0"⟩, "REVIEWER", false⟩,
                   ⟨⟨"D", "ud"⟩, "REVIEWER", false⟩] : List participant).filter
                    isReviewerB).map markName) = ", D"
      ∧ ("D" : String) ≠ ", D" := by
  refine ⟨by decide, by decide, by decide⟩

/-- The reviewer loop ignores non-REVIEWER participants: running it on the
REVIEWER-filtered participant list gives the same three accumulators. -/
theorem reviewerFold_filter (ps : List participant) :
    ∀ (rv ap : String) (n : Nat),
    reviewerFold (ps.filter isReviewerB) rv ap n = reviewerFold ps rv ap n := by
  induction ps with
  | nil => intro rv ap n; rfl
  | cons r rest ih =>
    intro rv ap n
    by_cases hR : r.Role = "REVIEWER"
    · have : isReviewerB r = true := by simp [isReviewerB, hR]
      rw [List.filter_cons_of_pos this]
      show reviewerFold (r :: rest.filter isReviewerB) rv ap n = _
      cases hA : r.Approved with
      | true => simp only [reviewerFold, hR, if_true, hA, ih]
      | false => simp only [reviewerFold, hR, if_true, hA, ih]
    · have : isReviewerB r = false := by simp [isReviewerB, hR]
      rw [List.filter_cons_of_neg (by simp [this])]
      simp only [reviewerFold, hR, if_false, ih]

/-- C8: a participant whose role is not REVIEWER contributes nothing to
the derived fields: dropping all non-REVIEWER participants leaves the
whole field record unchanged, and pointwise, the reviewer loop skips any
participant with a different role regardless of its approved flag. -/
theorem getPRFields_ignores_non_reviewers (p : pullRequest) :
    getPRFields { p with Participants := p.Participants.filter isReviewerB }
        = getPRFields p
      ∧ (∀ (r : participant), r.Role ≠ "REVIEWER" →
          ∀ (rest : List participant) (rv ap : String) (n : Nat),
            reviewerFold (r :: rest) rv ap n = reviewerFold rest rv ap n) := by
  constructor
  · simp only [getPRFields, reviewerFold_filter]
  · intro r hr rest rv ap n
    simp only [reviewerFold, hr, if_false]

/-- C8 witness: a PARTICIPANT-role entry with approved set contributes to
none of the derived fields. -/
theorem getPRFields_ignores_non_reviewers_witness :
    getPRFields
        { ID := 2, Title := "t", State := "OPEN", CommentCount := 0,
          TaskCount := 0, Author := ⟨"auth", "uau"⟩,
          CreatedOn := ⟨0, 0⟩, UpdatedOn := ⟨0, 0⟩,
          Source := ⟨⟨"r", "f/r", "r"⟩, ⟨"b1"⟩⟩,
          Destination := ⟨⟨"r", "f/r", "r"⟩, ⟨"b2"⟩⟩,
          Participants := List.filter isReviewerB
            [⟨⟨"P", "up"⟩, "PARTICIPANT", true⟩,
             ⟨⟨"A", "ua"⟩, "REVIEWER", true⟩],
          Links := ⟨⟨"http://x"⟩⟩ }
      = getPRFields
        { ID := 2, Title := "t", State := "OPEN", CommentCount := 0,
          TaskCount := 0, Author := ⟨"auth", "uau"⟩,
          CreatedOn := ⟨0, 0⟩, UpdatedOn := ⟨0, 0⟩,
          Source := ⟨⟨"r", "f/r", "r"⟩, ⟨"b1"⟩⟩,
          Destination := ⟨⟨"r", "f/r", "r"⟩, ⟨"b2"⟩⟩,
          Participants := [⟨⟨"P", "up"⟩, "PARTICIPANT", true⟩,
                           ⟨⟨"A", "ua"⟩, "REVIEWER", true⟩],
          Links := ⟨⟨"http://x"⟩⟩ }
      ∧ reviewerFold [⟨⟨"P", "up"⟩, "PARTICIPANT", true⟩] "x" "y" 3
          = reviewerFold [] "x" "y" 3 :=
  ⟨(getPRFields_ignores_non_reviewers
      { ID := 2, Title := "t", State := "OPEN", CommentCount := 0,
        TaskCount := 0, Author := ⟨"auth", "uau"⟩,
        CreatedOn := ⟨0, 0⟩, UpdatedOn := ⟨0, 0⟩,
        Source := ⟨⟨"r", "f/r", "r"⟩, ⟨"b1"⟩⟩,
        Destination := ⟨⟨"r", "f/r", "r"⟩, ⟨"b2"⟩⟩,
        Participants := [⟨⟨"P", "up"⟩, "PARTICIPANT", true⟩,
                         ⟨⟨"A", "ua"⟩, "REVIEWER", true⟩],
        Links := ⟨⟨"http://x"⟩⟩ }).1,
   (getPRFields_ignores_non_reviewers
      { ID := 2, Title := "t", State := "OPEN", CommentCount := 0,
        TaskCount := 0, Author := ⟨"auth", "uau"⟩,
        CreatedOn := ⟨0, 0⟩, UpdatedOn := ⟨0, 0⟩,
        Source := ⟨⟨"r", "f/r", "r"⟩, ⟨"b1"⟩⟩,
        Destination := ⟨⟨"r", "f/r", "r"⟩, ⟨"b2"⟩⟩,
        Participants := [], Links := ⟨⟨"http://x"⟩⟩ }).2
     ⟨⟨"P", "up"⟩, "PARTICIPANT", true⟩ (by decide) [] "x" "y" 3⟩

/-- C9: the emitted `created_on` and `updated_on` fields are the pull
request's creation and update timestamps converted to integer seconds
since the Unix epoch, in both record-reducer variants. -/
theorem getPRFields_timestamps (p : pullRequest) :
    (getPRFields p).created_on = p.CreatedOn.Unix
      ∧ (getPRFields p).updated_on = p.UpdatedOn.Unix
      ∧ (getPRFieldsV2 p).created_on = p.CreatedOn.Unix
      ∧ (getPRFieldsV2 p).updated_on = p.UpdatedOn.Unix :=
  ⟨rfl, rfl, rfl, rfl⟩

/-- Every loop iteration of the paginated fetch requests the current URL
with the parameter merge applied: the first logged request is the seed
path with the merged query. -/
theorem paginatedGet_first_request (pp : String → Except String page)
    (fields pagelen : String) (u : url) (resps : List doResult)
    (vs : List String) :
    ((paginatedGet pp fields pagelen u resps vs).2).head?
      = some ⟨u.path, mergeParams u.query pagelen fields⟩ := by
  cases resps with
  | nil => rfl
  | cons d rest =>
    cases d with
    | failure e => rfl
    | success r =>
      simp only [paginatedGet]
      split
      · rfl
      · split
        · rfl
        · split
          · rfl
          · rfl

/-- C5 (amended): a request URL whose `pagelen` and `fields` parameters
are already present with non-empty values is left unchanged by the
parameter merge — no duplicate or conflicting parameter is added and the
existing values win — and consequently the paginated fetch requests such
a URL with its query untouched. -/
theorem mergeParams_existing_win (q : List (String × String))
    (pagelen fields : String)
    (h1 : qGet q "pagelen" ≠ "") (h2 : qGet q "fields" ≠ "") :
    mergeParams q pagelen fields = q
      ∧ ∀ (pp : String → Except String page) (path : String)
          (resps : List doResult) (vs : List String),
          ((paginatedGet pp fields pagelen ⟨path, q⟩ resps vs).2).head?
            = some ⟨path, q⟩ := by
  have hm : mergeParams q pagelen fields = q := by
    simp [mergeParams, h1, h2]
  refine ⟨hm, ?_⟩
  intro pp path resps vs
  rw [paginatedGet_first_request]
  simp [hm]

/-- C5 witness: a seed URL already carrying `pagelen=50` and
`fields=values.id` keeps exactly its two parameters. -/
theorem mergeParams_existing_win_witness :
    qGet [("pagelen", "50"), ("fields", "values.id")] "pagelen" ≠ ""
      ∧ qGet [("pagelen", "50"), ("fields", "values.id")] "fields" ≠ ""
      ∧ mergeParams [("pagelen", "50"), ("fields", "values.id")] "25" "values.title"
          = [("pagelen", "50"), ("fields", "values.id")] :=
  ⟨by decide, by decide,
   (mergeParams_existing_win [("pagelen", "50"), ("fields", "values.id")]
      "25" "values.title" (by decide) (by decide)).1⟩

/-- C5 counterexample: a URL that carries a `pagelen` parameter with an
empty value (query string "pagelen=&fields=x") is not left unchanged:
`url.Values.Get` conflates an empty value with absence, so the merge
appends a second `pagelen` parameter, a duplicate of one already present
on the URL. -/
theorem mergeParams_existing_win_counterexample :
    mergeParams [("pagelen", ""), ("fields", "x")] "100" "f"
        ≠ [("pagelen", ""), ("fields", "x")]
      ∧ mergeParams [("pagelen", ""), ("fields", "x")] "100" "f"
          = [("pagelen", ""), ("fields", "x"), ("pagelen", "100")]
      ∧ ((mergeParams [("pagelen", ""), ("fields", "x")] "100" "f").filter
          (fun kv => kv.1 = "pagelen")).length = 2 :=
  ⟨by decide, by decide, by decide⟩

/-- C1: over any sequence of served pages containing a page with an empty
next-cursor, the paginated fetch returns the concatenation, in request
order, of the values of the pages up to and including the first page whose
next-cursor is empty, issuing exactly one request per page consumed. -/
theorem paginatedGet_concat_pages (pp : String → Except String page)
    (fields pagelen : String) :
    ∀ (pgs : List page) (resps : List doResult) (seed : url) (vs : List String),
      servesPages pp resps pgs = true → hasFinal pgs = true →
      (paginatedGet pp fields pagelen seed resps vs).1
          = Except.ok (vs ++ ((takeThrough pgs).map page.Values).flatten)
        ∧ ((paginatedGet pp fields pagelen seed resps vs).2).length
          = (takeThrough pgs).length := by
  intro pgs
  induction pgs with
  | nil =>
    intro resps seed vs hserve hfin
    exact absurd hfin (by simp [hasFinal])
  | cons pg pgs2 ih =>
    intro resps seed vs hserve hfin
    cases resps with
    | nil => exact absurd hserve (by simp [servesPages])
    | cons d rs =>
      cases d with
      | failure e => exact absurd hserve (by simp [servesPages])
      | success r =>
        simp only [servesPages, Bool.and_eq_true, decide_eq_true_eq] at hserve
        obtain ⟨⟨⟨h200, h299⟩, hparse⟩, hrest⟩ := hserve
        have hcond : ¬(r.StatusCode < 200 ∨ 299 < r.StatusCode) := by omega
        cases hn : pg.Next with
        | some nxt =>
          have hfin2 : hasFinal pgs2 = true := by
            simp only [hasFinal, hn, Option.isNone, Bool.false_or] at hfin
            exact hfin
          have hrec := ih rs nxt (vs ++ pg.Values) hrest hfin2
          constructor
          · show (paginatedGet pp fields pagelen seed (doResult.success r :: rs) vs).1 = _
            simp only [paginatedGet, if_neg hcond, hparse, hn]
            rw [hrec.1]
            simp [takeThrough, hn, List.append_assoc]
          · show ((paginatedGet pp fields pagelen seed (doResult.success r :: rs) vs).2).length = _
            simp only [paginatedGet, if_neg hcond, hparse, hn, List.length_cons]
            rw [hrec.2]
            simp [takeThrough, hn]
        | none =>
          constructor
          · show (paginatedGet pp fields pagelen seed (doResult.success r :: rs) vs).1 = _
            simp only [paginatedGet, if_neg hcond, hparse, hn]
            simp [takeThrough, hn]
          · show ((paginatedGet pp fields pagelen seed (doResult.success r :: rs) vs).2).length = _
            simp only [paginatedGet, if_neg hcond, hparse, hn]
            simp [takeThrough, hn]

/-- C1 witness: a two-page session (first page with a non-empty cursor and
values v1, v2; second page with an empty cursor and value v3) yields the
concatenation v1, v2, v3 with exactly one request per page. -/
theorem paginatedGet_concat_pages_witness :
    servesPages
        (fun b => if b = "body1"
          then Except.ok ⟨some ⟨"p2", []⟩, ["v1", "v2"]⟩
          else if b = "body2"
            then Except.ok ⟨none, ["v3"]⟩
            else Except.error "bad json")
        [doResult.success ⟨200, "200 OK", "body1"⟩,
         doResult.success ⟨200, "200 OK", "body2"⟩]
        [⟨some ⟨"p2", []⟩, ["v1", "v2"]⟩, ⟨none, ["v3"]⟩] = true
      ∧ hasFinal [⟨some ⟨"p2", []⟩, ["v1", "v2"]⟩, ⟨none, ["v3"]⟩] = true
      ∧ (paginatedGet
          (fun b => if b = "body1"
            then Except.ok ⟨some ⟨"p2", []⟩, ["v1", "v2"]⟩
            else if b = "body2"
              then Except.ok ⟨none, ["v3"]⟩
              else Except.error "bad json")
          "values.id" "25" ⟨"p1", []⟩
          [doResult.success ⟨200, "200 OK", "body1"⟩,
           doResult.success ⟨200, "200 OK", "body2"⟩] []).1
        = Except.ok ["v1", "v2", "v3"]
      ∧ ((paginatedGet
          (fun b => if b = "body1"
            then Except.ok ⟨some ⟨"p2", []⟩, ["v1", "v2"]⟩
            else if b = "body2"
              then Except.ok ⟨none, ["v3"]⟩
              else Except.error "bad json")
          "values.id" "25" ⟨"p1", []⟩
          [doResult.success ⟨200, "200 OK", "body1"⟩,
           doResult.success ⟨200, "200 OK", "body2"⟩] []).2).length = 2 := by
  refine ⟨by decide, by decide, ?_, ?_⟩
  · exact ((paginatedGet_concat_pages
      (fun b => if b = "body1"
        then Except.ok ⟨some ⟨"p2", []⟩, ["v1", "v2"]⟩
        else if b = "body2"
          then Except.ok ⟨none, ["v3"]⟩
          else Except.error "bad json")
      "values.id" "25"
      [⟨some ⟨"p2", []⟩, ["v1", "v2"]⟩, ⟨none, ["v3"]⟩]
      [doResult.success ⟨200, "200 OK", "body1"⟩,
       doResult.success ⟨200, "200 OK", "body2"⟩]
      ⟨"p1", []⟩ [] (by decide) (by decide)).1).trans (by decide)
  · exact ((paginatedGet_concat_pages
      (fun b => if b = "body1"
        then Except.ok ⟨some ⟨"p2", []⟩, ["v1", "v2"]⟩
        else if b = "body2"
          then Except.ok ⟨none, ["v3"]⟩
          else Except.error "bad json")
      "values.id" "25"
      [⟨some ⟨"p2", []⟩, ["v1", "v2"]⟩, ⟨none, ["v3"]⟩]
      [doResult.success ⟨200, "200 OK", "body1"⟩,
       doResult.success ⟨200, "200 OK", "body2"⟩]
      ⟨"p1", []⟩ [] (by decide) (by decide)).2).trans (by decide)

/-- C4: if, after any number of successfully served pages (each with a
non-empty next-cursor), a response arrives whose status code is outside
200-299, the paginated fetch fails with the error "Response from Bitbucket
API: " followed by the response's status text, having issued exactly one
request per served page plus the single failing request (no retry), and
returns no accumulation of the previously fetched values. -/
theorem paginatedGet_non2xx_fails (pp : String → Except String page)
    (fields pagelen : String) :
    ∀ (pgs : List page) (resps1 : List doResult) (bad : httpResponse)
      (rest : List doResult) (seed : url) (vs : List String),
      servesPages pp resps1 pgs = true → allNextSome pgs = true →
      (bad.StatusCode < 200 ∨ 299 < bad.StatusCode) →
      (paginatedGet pp fields pagelen seed
          (resps1 ++ doResult.success bad :: rest) vs).1
          = Except.error ("Response from Bitbucket API: " ++ bad.Status)
        ∧ ((paginatedGet pp fields pagelen seed
            (resps1 ++ doResult.success bad :: rest) vs).2).length
          = pgs.length + 1 := by
  intro pgs
  induction pgs with
  | nil =>
    intro resps1 bad rest seed vs hserve hall hbad
    have hnil : resps1 = [] := by
      cases resps1 with
      | nil => rfl
      | cons d rs =>
        cases d with
        | failure e => exact absurd hserve (by simp [servesPages])
        | success r => exact absurd hserve (by simp [servesPages])
    subst hnil
    constructor
    · show (paginatedGet pp fields pagelen seed (doResult.success bad :: rest) vs).1 = _
      simp only [paginatedGet, if_pos hbad]
    · show ((paginatedGet pp fields pagelen seed (doResult.success bad :: rest) vs).2).length = _
      simp only [paginatedGet, if_pos hbad, List.length_singleton, List.length_nil]
  | cons pg pgs2 ih =>
    intro resps1 bad rest seed vs hserve hall hbad
    cases resps1 with
    | nil => exact absurd hserve (by simp [servesPages])
    | cons d rs =>
      cases d with
      | failure e => exact absurd hserve (by simp [servesPages])
      | success r =>
        simp only [servesPages, Bool.and_eq_true, decide_eq_true_eq] at hserve
        obtain ⟨⟨⟨h200, h299⟩, hparse⟩, hrest⟩ := hserve
        have hcond : ¬(r.StatusCode < 200 ∨ 299 < r.StatusCode) := by omega
        simp only [allNextSome, Bool.and_eq_true] at hall
        obtain ⟨hsome, hall2⟩ := hall
        obtain ⟨nxt, hn⟩ := Option.isSome_iff_exists.mp hsome
        have hrec := ih rs bad rest nxt (vs ++ pg.Values) hrest hall2 hbad
        constructor
        · show (paginatedGet pp fields pagelen seed
              ((doResult.success r :: rs) ++ doResult.success bad :: rest) vs).1 = _
          simp only [List.cons_append, paginatedGet, if_neg hcond, hparse, hn]
          exact hrec.1
        · show ((paginatedGet pp fields pagelen seed
              ((doResult.success r :: rs) ++ doResult.success bad :: rest) vs).2).length = _
          simp only [List.cons_append, paginatedGet, if_neg hcond, hparse, hn,
            List.length_cons]
          rw [List.append_eq, hrec.2]

/-- C4 witness: one good page with a non-empty cursor followed by a 500
response makes the fetch fail with the 500 status text after exactly two
requests, with the first page's values discarded. -/
theorem paginatedGet_non2xx_fails_witness :
    servesPages
        (fun b => if b = "body1"
          then Except.ok ⟨some ⟨"p2", []⟩, ["v1"]⟩
          else Except.error "bad json")
        [doResult.success ⟨200, "200 OK", "body1"⟩]
        [⟨some ⟨"p2", []⟩, ["v1"]⟩] = true
      ∧ allNextSome [⟨some ⟨"p2", []⟩, ["v1"]⟩] = true
      ∧ ((500 : Int) < 200 ∨ (299 : Int) < 500)
      ∧ (paginatedGet
          (fun b => if b = "body1"
            then Except.ok ⟨some ⟨"p2", []⟩, ["v1"]⟩
            else Except.error "bad json")
          "values.id" "25" ⟨"p1", []⟩
          [doResult.success ⟨200, "200 OK", "body1"⟩,
           doResult.success ⟨500, "500 Internal Server Error", "oops"⟩] []).1
        = Except.error "Response from Bitbucket API: 500 Internal Server Error"
      ∧ ((paginatedGet
          (fun b => if b = "body1"
            then Except.ok ⟨some ⟨"p2", []⟩, ["v1"]⟩
            else Except.error "bad json")
          "values.id" "25" ⟨"p1", []⟩
          [doResult.success ⟨200, "200 OK", "body1"⟩,
           doResult.success ⟨500, "500 Internal Server Error", "oops"⟩] []).2).length
        = 2 := by
  refine ⟨by decide, by decide, by decide, ?_, ?_⟩
  · exact ((paginatedGet_non2xx_fails
      (fun b => if b = "body1"
        then Except.ok ⟨some ⟨"p2", []⟩, ["v1"]⟩
        else Except.error "bad json")
      "values.id" "25" [⟨some ⟨"p2", []⟩, ["v1"]⟩]
      [doResult.success ⟨200, "200 OK", "body1"⟩]
      ⟨500, "500 Internal Server Error", "oops"⟩ []
      ⟨"p1", []⟩ [] (by decide) (by decide) (by decide)).1).trans (by decide)
  · exact ((paginatedGet_non2xx_fails
      (fun b => if b = "body1"
        then Except.ok ⟨some ⟨"p2", []⟩, ["v1"]⟩
        else Except.error "bad json")
      "values.id" "25" [⟨some ⟨"p2", []⟩, ["v1"]⟩]
      [doResult.success ⟨200, "200 OK", "body1"⟩]
      ⟨500, "500 Internal Server Error", "oops"⟩ []
      ⟨"p1", []⟩ [] (by decide) (by decide) (by decide)).2).trans (by decide)

/-- One fan-out task either appends its successfully parsed pull requests
and reports nothing, or appends nothing and reports exactly one error:
`getPRs` in terms of the per-entity contribution and error lists. -/
theorem getPRs_shape {μ : Type} (env : httpEnv) (prURL : String)
    (a : accum μ) (out : List pullRequest) :
    getPRs env prURL a out
      = ({ a with errors := a.errors ++ prErrs env prURL },
         out ++ prContrib env prURL) := by
  unfold getPRs getPRsWith prErrs prContrib fetchParsePRs
  cases h : (paginatedGet env.parsePage prFieldsSelector "25"
      ⟨prURL, []⟩ (env.serve prURL) []).1 with
  | error e => simp [h, accum.addError]
  | ok rawPRs =>
    cases h2 : parseAll env.parsePR rawPRs with
    | error e => simp [h, h2, accum.addError]
    | ok l => simp [h, h2]

/-- Folding the fan-out tasks over any entity list concatenates the
per-entity contributions and appends the per-entity error reports, in
entity order. -/
theorem foldl_getPRs {μ α : Type} (env : httpEnv) (f : α → String) (xs : List α) :
    ∀ (a : accum μ) (out : List pullRequest),
    xs.foldl (fun s x => getPRs env (f x) s.1 s.2) (a, out)
      = ({ a with errors := a.errors ++ (xs.map (fun x => prErrs env (f x))).flatten },
         out ++ (xs.map (fun x => prContrib env (f x))).flatten) := by
  induction xs with
  | nil => intro a out; simp
  | cons x rest ih =>
    intro a out
    calc (x :: rest).foldl (fun s x => getPRs env (f x) s.1 s.2) (a, out)
        = rest.foldl (fun s x => getPRs env (f x) s.1 s.2) (getPRs env (f x) a out) := rfl
      _ = rest.foldl (fun s x => getPRs env (f x) s.1 s.2)
            ({ a with errors := a.errors ++ prErrs env (f x) },
             out ++ prContrib env (f x)) := by rw [getPRs_shape]
      _ = _ := by rw [ih]; simp [List.append_assoc]

/-- C3: the merged collection of the member fan-out is the concatenation
of the per-entity contributions — its size is the sum of the per-entity
successfully-parsed counts — the reported errors are the initial ones
followed by the per-entity reports, and per entity: a failed fetch or
parse contributes zero pull requests and exactly one error, while a
successful fetch contributes exactly its parsed pull requests and no
error. -/
theorem getUserPRs_fanout_isolation {μ : Type} (env : httpEnv) (base : String)
    (members : List user) (a : accum μ) :
    (getUserPRs env base members a).2
        = (members.map (fun m => prContrib env (memberPRURL env base m))).flatten
      ∧ (getUserPRs env base members a).1.errors
        = a.errors ++ (members.map (fun m => prErrs env (memberPRURL env base m))).flatten
      ∧ (getUserPRs env base members a).2.length
        = (members.map (fun m => (prContrib env (memberPRURL env base m)).length)).sum
      ∧ (∀ (prURL e : String), fetchParsePRs env prURL = Except.error e →
          prContrib env prURL = [] ∧ prErrs env prURL = [e])
      ∧ (∀ (prURL : String) (l : List pullRequest),
          fetchParsePRs env prURL = Except.ok l →
          prContrib env prURL = l ∧ prErrs env prURL = []) := by
  have hfold := foldl_getPRs env (fun m => memberPRURL env base m) members a []
  refine ⟨?_, ?_, ?_, ?_, ?_⟩
  · show (members.foldl (fun s m => getPRs env (memberPRURL env base m) s.1 s.2) (a, [])).2 = _
    rw [hfold]
    simp
  · show (members.foldl (fun s m => getPRs env (memberPRURL env base m) s.1 s.2) (a, [])).1.errors = _
    rw [hfold]
  · show (members.foldl (fun s m => getPRs env (memberPRURL env base m) s.1 s.2) (a, [])).2.length = _
    rw [hfold]
    simp [List.length_flatten, Function.comp_def]
  · intro prURL e he
    constructor
    · simp [prContrib, he]
    · simp [prErrs, he]
  · intro prURL l hl
    constructor
    · simp [prContrib, hl]
    · simp [prErrs, hl]

/-- C3 witness: with three members of which exactly the second receives a
non-2xx status, the merged result holds exactly the other two members'
pull requests (size 2) and exactly one error is reported; the failing
member contributes nothing and reports exactly the status error. -/
theorem getUserPRs_fanout_isolation_witness :
    (getUserPRs envC3 "b" [⟨"", "u1"⟩, ⟨"", "u2"⟩, ⟨"", "u3"⟩]
        (⟨[], []⟩ : accum metric)).2 = [prOneC3, prThreeC3]
      ∧ (getUserPRs envC3 "b" [⟨"", "u1"⟩, ⟨"", "u2"⟩, ⟨"", "u3"⟩]
          (⟨[], []⟩ : accum metric)).1.errors
        = ["Response from Bitbucket API: 500 Internal Server Error"]
      ∧ (getUserPRs envC3 "b" [⟨"", "u1"⟩, ⟨"", "u2"⟩, ⟨"", "u3"⟩]
          (⟨[], []⟩ : accum metric)).2.length = 2
      ∧ prContrib envC3 "b/pullrequests/u2" = []
      ∧ prErrs envC3 "b/pullrequests/u2"
        = ["Response from Bitbucket API: 500 Internal Server Error"] := by
  have h := getUserPRs_fanout_isolation (μ := metric) envC3 "b"
    [⟨"", "u1"⟩, ⟨"", "u2"⟩, ⟨"", "u3"⟩] ⟨[], []⟩
  refine ⟨h.1.trans (by decide), h.2.1.trans (by decide), (h.2.2.1).trans (by decide),
    (h.2.2.2.1 "b/pullrequests/u2"
      "Response from Bitbucket API: 500 Internal Server Error" (by decide)).1,
    (h.2.2.2.1 "b/pullrequests/u2"
      "Response from Bitbucket API: 500 Internal Server Error" (by decide)).2⟩

/-- C6: for a gather-type other than team, user and repos, `Gather`
reports exactly one error (the invalid-gather-type message), emits no
metric record, returns that error to its caller, and performs no
resolution or fetching — the result does not depend on the transport
environment at all. -/
theorem Gather_invalid_gather_type (env env2 : httpEnv) (bb : Bitbucket)
    (a : accum metric)
    (h1 : bb.GatherType ≠ "team") (h2 : bb.GatherType ≠ "user")
    (h3 : bb.GatherType ≠ "repos") :
    Gather env bb a = (a.addError invalidGatherTypeMsg, some invalidGatherTypeMsg)
      ∧ (Gather env bb a).1.errors = a.errors ++ [invalidGatherTypeMsg]
      ∧ (Gather env bb a).1.metrics = a.metrics
      ∧ Gather env2 bb a = Gather env bb a := by
  have hg : ∀ e : httpEnv,
      Gather e bb a = (a.addError invalidGatherTypeMsg, some invalidGatherTypeMsg) := by
    intro e
    simp [Gather, h1, h2, h3]
  refine ⟨hg env, ?_, ?_, (hg env2).trans (hg env).symm⟩
  · rw [hg env]
    simp [accum.addError]
  · rw [hg env]
    simp [accum.addError]

/-- C6 witness: gather-type "bogus" yields exactly the reported
invalid-gather-type error, no records, the same error returned, and the
same outcome under a different environment. -/
theorem Gather_invalid_gather_type_witness :
    (⟨"o", "bogus", "b"⟩ : Bitbucket).GatherType ≠ "team"
      ∧ (⟨"o", "bogus", "b"⟩ : Bitbucket).GatherType ≠ "user"
      ∧ (⟨"o", "bogus", "b"⟩ : Bitbucket).GatherType ≠ "repos"
      ∧ Gather envFailC10 ⟨"o", "bogus", "b"⟩ (⟨[], []⟩ : accum metric)
        = (accum.addError ⟨[], []⟩ invalidGatherTypeMsg, some invalidGatherTypeMsg) :=
  ⟨by decide, by decide, by decide,
   (Gather_invalid_gather_type envFailC10 envFailC10 ⟨"o", "bogus", "b"⟩ ⟨[], []⟩
      (by decide) (by decide) (by decide)).1⟩

/-- C10: the error value `Gather` returns depends on the gather mode: a
team-mode member-listing failure is reported to the accumulator and also
returned to the caller; a repos-mode repository-listing failure is
reported to the accumulator but `Gather` returns nil; and in user mode no
resolution is performed — the single entity is built directly from the
configured owner and the cycle proceeds straight to the fan-out,
returning nil. -/
theorem Gather_resolution_error_paths (env : httpEnv) (bb : Bitbucket)
    (a : accum metric) :
    (∀ e : String, bb.GatherType = "team" →
        getTeamMembers env bb.BitbucketAPIBaseURL bb.Owner = Except.error e →
        Gather env bb a = (a.addError e, some e))
      ∧ (∀ e : String, bb.GatherType = "repos" →
          getRepos env bb.BitbucketAPIBaseURL bb.Owner = Except.error e →
          Gather env bb a = (a.addError e, none))
      ∧ (bb.GatherType = "user" →
          Gather env bb a
            = (accumulatePRs
                (getUserPRs env bb.BitbucketAPIBaseURL [⟨"", bb.Owner⟩] a).2
                (getUserPRs env bb.BitbucketAPIBaseURL [⟨"", bb.Owner⟩] a).1,
               none)) := by
  refine ⟨?_, ?_, ?_⟩
  · intro e ht he
    simp [Gather, ht, he]
  · intro e hr he
    simp [Gather, hr, he]
  · intro hu
    simp [Gather, hu]

/-- C10 witness: under an all-failing transport, team mode returns the
reported error, repos mode reports it but returns nil, and user mode goes
straight to the fan-out and returns nil. -/
theorem Gather_resolution_error_paths_witness :
    Gather envFailC10 ⟨"o", "team", "b"⟩ (⟨[], []⟩ : accum metric)
        = (accum.addError ⟨[], []⟩ "boom", some "boom")
      ∧ Gather envFailC10 ⟨"o", "repos", "b"⟩ (⟨[], []⟩ : accum metric)
        = (accum.addError ⟨[], []⟩ "boom", none)
      ∧ Gather envFailC10 ⟨"o", "user", "b"⟩ (⟨[], []⟩ : accum metric)
        = (accumulatePRs
            (getUserPRs envFailC10 "b" [⟨"", "o"⟩] (⟨[], []⟩ : accum metric)).2
            (getUserPRs envFailC10 "b" [⟨"", "o"⟩] (⟨[], []⟩ : accum metric)).1,
           none) :=
  ⟨(Gather_resolution_error_paths envFailC10 ⟨"o", "team", "b"⟩ ⟨[], []⟩).1
      "boom" rfl (by decide),
   (Gather_resolution_error_paths envFailC10 ⟨"o", "repos", "b"⟩ ⟨[], []⟩).2.1
      "boom" rfl (by decide),
   (Gather_resolution_error_paths envFailC10 ⟨"o", "user", "b"⟩ ⟨[], []⟩).2.2 rfl⟩

/-- C7: in the part_002 variant, a repository-listing failure (here a 404
on the repositories endpoint) makes `gatherRepos` abort the whole process
with exit code 1, for every accumulator state: the error is only printed,
never reported through the accumulator's error channel, and the abort is
process-fatal — contradicting the claim that no error kind reaches past
the caller of Gather as anything but a reported error. -/
theorem gatherReposV2_aborts_process :
    ∀ a : accum metricV2,
      gatherReposV2 envNotFoundC7 "b" "acct" a
          = procResult.aborted 1 "Response from Bitbucket API: 404 Not Found"
        ∧ getRepos envNotFoundC7 "b" "acct"
          = Except.error "Response from Bitbucket API: 404 Not Found" := by
  intro a
  have h : getRepos envNotFoundC7 "b" "acct"
      = Except.error "Response from Bitbucket API: 404 Not Found" := by decide
  exact ⟨by simp [gatherReposV2, h], h⟩
